import Mathlib

/-!
Verification development for the CFPM evaluation harness
(scripts/cfpm_api_eval.py and scripts/cfpm_resume_eval.py).

The Python source is shallowly embedded: dictionaries become association
lists over a small value type, the JSON values produced by json.loads become
an inductive type, json.loads itself is an abstract parameter
(parse : String -> Option Jv, none meaning the library raised), and the
network read loops become structural recursion over a list of lines, each
line paired with the wall-clock elapsed time observed when its loop
iteration begins.  Strings use Lean's String; Python str.lower/str.strip
and friends are modelled by character-list functions (pyLower, pyStrip,
...), ASCII-faithful, which covers every pattern the scripts use.
-/

namespace AgimeEval

/-- A Python value stored in a record returned by the API: either a str,
or any non-str value carrying its str() rendering. -/
inductive PVal where
  | s (v : String)
  | other (repr : String)
deriving DecidableEq, Repr

/-- A Python dict with string keys, as an association list (keys unique in
practice; get returns the first binding like dict lookup). -/
abbrev Dict := List (String × PVal)

/-- Model of d.get(k): first binding for k, if any. -/
def dictGet (d : Dict) (k : String) : Option PVal :=
  (d.find? (fun p => p.1 == k)).map (fun p => p.2)

/-- Model of str(d.get(k, "")): absent key gives "", a str gives itself,
any other value gives its str() rendering. -/
def getStr (d : Dict) (k : String) : String :=
  match dictGet d k with
  | none => ""
  | some (PVal.s v) => v
  | some (PVal.other r) => r

/-- Model of the guarded access pattern
isinstance(d.get("content"), str) followed by d["content"]. -/
def contentStr (d : Dict) : Option String :=
  match dictGet d "content" with
  | some (PVal.s v) => some v
  | _ => none

/-- Strip of a character list: whitespace removed from both ends. -/
def stripList (l : List Char) : List Char :=
  ((l.dropWhile Char.isWhitespace).reverse.dropWhile Char.isWhitespace).reverse

/-- Model of Python str.strip(), computed on the character list so that it
reduces in the kernel. -/
def pyStrip (s : String) : String :=
  String.mk (stripList s.toList)

/-- Model of Python str.lower(); ASCII-faithful like the source patterns. -/
def pyLower (s : String) : String :=
  String.mk (s.toList.map Char.toLower)

/-- Model of str.startswith. -/
def pyStartsWith (s pre : String) : Bool :=
  pre.toList.isPrefixOf s.toList

/-- Model of str.endswith. -/
def pyEndsWith (s suf : String) : Bool :=
  suf.toList.reverse.isPrefixOf s.toList.reverse

/-- Model of the slice s[n:] on character counts. -/
def strDrop (s : String) (n : Nat) : String :=
  String.mk (s.toList.drop n)

/-- Model of Python substring membership: needle in hay. -/
def listHasSub (needle : List Char) : List Char → Bool
  | [] => needle.isEmpty
  | c :: t => needle.isPrefixOf (c :: t) || listHasSub needle t

/-- Model of the Python expression needle in hay for strings. -/
def pyContains (hay needle : String) : Bool :=
  listHasSub needle.toList hay.toList

/-- Separator class of DATE_ONLY_RE: one of . / -. -/
def isSepChar (c : Char) : Bool :=
  c = '.' || c = '/' || c = '-'

/-- Tail of DATE_ONLY_RE: a day of 1 or 2 digits then end of string. -/
def dateDayTail (l : List Char) : Bool :=
  match l with
  | [d1] => d1.isDigit
  | [d1, d2] => d1.isDigit && d2.isDigit
  | _ => false

/-- Middle of DATE_ONLY_RE: a month of 1 or 2 digits, a separator, then the
day tail.  The separator class excludes digits, so the greedy quantifier is
deterministic: the case split on the second character is exhaustive. -/
def dateMonthTail (l : List Char) : Bool :=
  match l with
  | d1 :: c2 :: rest =>
    d1.isDigit &&
      (if isSepChar c2 then dateDayTail rest
       else d1.isDigit && c2.isDigit &&
         (match rest with
          | c3 :: rest2 => isSepChar c3 && dateDayTail rest2
          | [] => false))
  | _ => false

/-- Model of DATE_ONLY_RE.match on a whole (already stripped) string:
four digits, separator, 1-2 digit month, separator, 1-2 digit day. -/
def isDateOnly (s : String) : Bool :=
  match s.toList with
  | y1 :: y2 :: y3 :: y4 :: c :: rest =>
    y1.isDigit && y2.isDigit && y3.isDigit && y4.isDigit &&
      isSepChar c && dateMonthTail rest
  | _ => false

/-- Case-insensitive character list comparison helper. -/
def lowEq (a b : List Char) : Bool :=
  a.map Char.toLower == b.map Char.toLower

/-- Tail of DESKTOP_WRONG_RE after the backslash that follows the user
segment: the literal Desktop with an optional trailing backslash, then end
of string, case-insensitively. -/
def desktopTail (l : List Char) : Bool :=
  lowEq l "desktop".toList || lowEq l ("desktop".toList ++ ['\\'])

/-- Segment part of DESKTOP_WRONG_RE: one or more non-backslash characters,
a backslash, then the Desktop tail.  The character class excludes the
backslash, so the greedy quantifier consumes exactly the text before the
next backslash. -/
def desktopSeg (l : List Char) : Bool :=
  let seg := l.takeWhile (fun c => c ≠ '\\')
  let rest := l.dropWhile (fun c => c ≠ '\\')
  !seg.isEmpty &&
    (match rest with
     | '\\' :: tail => desktopTail tail
     | _ => false)

/-- Model of DESKTOP_WRONG_RE.match on a whole (already stripped) string:
a drive letter, a colon, a backslash, the literal Users, a backslash, one
path segment, optionally a trailing backslash after Desktop; IGNORECASE. -/
def isDesktopWrong (s : String) : Bool :=
  match s.toList with
  | c1 :: c2 :: c3 :: u1 :: u2 :: u3 :: u4 :: u5 :: b :: rest =>
    c1.isAlpha && c2 = ':' && c3 = '\\' &&
      lowEq [u1, u2, u3, u4, u5] "users".toList && b = '\\' &&
      desktopSeg rest
  | _ => false

/-- A JSON value as produced by json.loads.  Numbers are modelled as
integers; nothing in the scripts inspects numeric values. -/
inductive Jv where
  | null
  | jbool (b : Bool)
  | jnum (n : Int)
  | jstr (v : String)
  | jarr (elems : List Jv)
  | jobj (fields : List (String × Jv))

/-- Lookup of a field in a JSON object body, modelling dict.get. -/
def jGetF (fields : List (String × Jv)) (k : String) : Option Jv :=
  (fields.find? (fun p => p.1 == k)).map (fun p => p.2)

/-- The type field of a JSON object body, when it is a string; the scripts
compare obj.get("type") against string literals, so a missing or non-str
type never equals them. -/
def objType (fields : List (String × Jv)) : Option String :=
  match jGetF fields "type" with
  | some (Jv.jstr v) => some v
  | _ => none

/-- Whether a parsed event is terminal for the read loops:
parsed.get("type") in ("Finish", "Error"). -/
def isTerminalB (j : Jv) : Bool :=
  match j with
  | Jv.jobj fields => objType fields == some "Finish" || objType fields == some "Error"
  | _ => false

/-- Line framing shared by both read loops: strip the raw line, require the
data: marker, take the rest of the line, strip it, require it nonempty.
Lines failing any step are skipped by both loops. -/
def dataPayload (raw : String) : Option String :=
  let line := pyStrip raw
  if line.toList.isEmpty || !(pyStartsWith line "data:") then none
  else
    let payload := pyStrip (strDrop line 5)
    if payload.toList.isEmpty then none else some payload

/-- One line of ApiClient.stream_reply (cfpm_api_eval.py): the payload is
handed to maybe_json; a parse failure returns the original string, and only
dict results are collected, so non-objects and failures both yield none. -/
def parsedEvent (parse : String → Option Jv) (raw : String) : Option Jv :=
  match dataPayload raw with
  | none => none
  | some payload =>
    match parse payload with
    | some (Jv.jobj fields) => some (Jv.jobj fields)
    | _ => none

/-- The read loop of ApiClient.stream_reply (cfpm_api_eval.py, lines
97-114).  Each stream element carries the wall-clock time elapsed when its
iteration begins; the loop breaks before processing a line once the elapsed
time strictly exceeds the timeout, collects parsed dict events, and breaks
right after appending an event whose type is Finish or Error. -/
def stream_reply (parse : String → Option Jv) (timeout : ℚ) :
    List (ℚ × String) → List Jv
  | [] => []
  | (t, raw) :: rest =>
    if timeout < t then []
    else
      match parsedEvent parse raw with
      | none => stream_reply parse timeout rest
      | some j =>
        if isTerminalB j then [j]
        else j :: stream_reply parse timeout rest

/-- All JSON-object events decoded from the data lines of a stream,
ignoring timestamps; the reference sequence the spec describes. -/
def decodedObjEvents (parse : String → Option Jv) (lines : List (ℚ × String)) :
    List Jv :=
  lines.filterMap (fun p => parsedEvent parse p.2)

/-- Modelled from the spec's description of the decoder contract: the
events of a stream up to and including the first terminal one. -/
def specUpToTerminal : List Jv → List Jv
  | [] => []
  | j :: rest => if isTerminalB j then [j] else j :: specUpToTerminal rest

/-- Whether the first terminal event of a decoded sequence exists and has
type Finish (the premise of the decoder claim). -/
def firstTerminalFinish (l : List Jv) : Bool :=
  match l.find? isTerminalB with
  | some (Jv.jobj fields) => objType fields == some "Finish"
  | _ => false

/-- Whether the last event of a sequence has type Finish. -/
def lastIsFinish (l : List Jv) : Bool :=
  match l.getLast? with
  | some (Jv.jobj fields) => objType fields == some "Finish"
  | _ => false

/-- Accumulator of ApiClient.reply_sse (cfpm_resume_eval.py): the local
variables of its read loop. -/
structure SseAcc where
  eventTypes : List String
  assistantText : List String
  systemNotes : List String
  toolRequests : Nat
  error : Option Jv
  finishReason : Option Jv

/-- Initial state of the reply_sse loop. -/
def sseInit : SseAcc :=
  { eventTypes := [], assistantText := [], systemNotes := [],
    toolRequests := 0, error := none, finishReason := none }

/-- The type field of a content item c, when c is a dict and the field a
string; c.get on a non-dict raises, which the caller propagates. -/
def itemType (fields : List (String × Jv)) : Option String :=
  match jGetF fields "type" with
  | some (Jv.jstr v) => some v
  | _ => none

/-- First if of the content loop body in reply_sse: a text item appends
its text when it is a str. -/
def procText (fields : List (String × Jv)) (acc : SseAcc) : SseAcc :=
  if itemType fields == some "text" then
    match jGetF fields "text" with
    | some (Jv.jstr t) => { acc with assistantText := acc.assistantText ++ [t] }
    | _ => acc
  else acc

/-- Second if of the content loop body: a toolRequest item bumps the
counter. -/
def procTool (fields : List (String × Jv)) (acc : SseAcc) : SseAcc :=
  if itemType fields == some "toolRequest" then
    { acc with toolRequests := acc.toolRequests + 1 }
  else acc

/-- Third if of the content loop body: a systemNotification item appends
its msg when it is a str containing CFPM. -/
def procNote (fields : List (String × Jv)) (acc : SseAcc) : SseAcc :=
  if itemType fields == some "systemNotification" then
    match jGetF fields "msg" with
    | some (Jv.jstr note) =>
      if pyContains note "CFPM" then
        { acc with systemNotes := acc.systemNotes ++ [note] }
      else acc
    | _ => acc
  else acc

/-- One content item of a Message event in reply_sse: the three sequential
ifs of the loop body; a non-dict item makes c.get raise AttributeError. -/
def procItem (acc : SseAcc) (c : Jv) : Except Unit SseAcc :=
  match c with
  | Jv.jobj fields => Except.ok (procNote fields (procTool fields (procText fields acc)))
  | _ => Except.error ()

/-- Folding procItem over the content items of one Message event. -/
def procItems (acc : SseAcc) : List Jv → Except Unit SseAcc
  | [] => Except.ok acc
  | c :: cs =>
    match procItem acc c with
    | Except.error e => Except.error e
    | Except.ok acc2 => procItems acc2 cs

/-- Model of msg.get("content", []) or [] followed by iteration: absent,
null, and other falsy values give no items, a list gives its elements, and
a truthy non-list value makes the loop body raise on its first element
(string and dict iteration yield non-dict elements whose .get raises). -/
def contentItems (mf : List (String × Jv)) : Except Unit (List Jv) :=
  match jGetF mf "content" with
  | none => Except.ok []
  | some Jv.null => Except.ok []
  | some (Jv.jbool false) => Except.ok []
  | some (Jv.jnum 0) => Except.ok []
  | some (Jv.jstr "") => Except.ok []
  | some (Jv.jarr l) => Except.ok l
  | some (Jv.jobj []) => Except.ok []
  | some _ => Except.error ()

/-- Model of msg = obj.get("message", {}) followed by the content loop:
a missing message behaves as an empty dict, a dict yields its content
items, and msg.get on a non-dict message raises AttributeError. -/
def msgItems (fields : List (String × Jv)) : Except Unit (List Jv) :=
  match jGetF fields "message" with
  | none => Except.ok []
  | some (Jv.jobj mf) => contentItems mf
  | some _ => Except.error ()

/-- The read loop of ApiClient.reply_sse (cfpm_resume_eval.py, lines
82-116).  There is no wall-clock check inside the loop: the timestamps of
the stream elements are never consulted (the Python timeout argument only
bounds individual socket reads).  json.loads failures are skipped; on a
successful parse the code calls obj.get("type") directly, which raises
AttributeError when the payload is valid JSON but not an object.  Events
whose type field is missing or not a string are skipped; typed events have
their type recorded, Message events are folded over their content items,
and an Error or Finish event stores its error or reason field and breaks
the loop. -/
def replySseAux (parse : String → Option Jv) :
    List (ℚ × String) → SseAcc → Except Unit SseAcc
  | [], acc => Except.ok acc
  | (_, raw) :: rest, acc =>
    match dataPayload raw with
    | none => replySseAux parse rest acc
    | some blob =>
      match parse blob with
      | none => replySseAux parse rest acc
      | some (Jv.jobj fields) =>
        (match objType fields with
         | some t =>
           let acc1 := { acc with eventTypes := acc.eventTypes ++ [t] }
           if t = "Message" then
             match msgItems fields with
             | Except.error e => Except.error e
             | Except.ok items =>
               match procItems acc1 items with
               | Except.error e => Except.error e
               | Except.ok acc2 => replySseAux parse rest acc2
           else if t = "Error" then
             Except.ok { acc1 with error := jGetF fields "error" }
           else if t = "Finish" then
             Except.ok { acc1 with finishReason := jGetF fields "reason" }
           else
             replySseAux parse rest acc1
         | none => replySseAux parse rest acc)
      | some _ => Except.error ()

/-- ApiClient.reply_sse with its timeout argument, which the read loop
never uses (it is only the socket timeout in the source). -/
def reply_sse (parse : String → Option Jv) (_timeout : ℚ)
    (lines : List (ℚ × String)) : Except Unit SseAcc :=
  replySseAux parse lines sseInit

/-- Event types recorded by a reply_sse run, empty when it raised. -/
def sseTypes (r : Except Unit SseAcc) : List String :=
  match r with
  | Except.ok acc => acc.eventTypes
  | Except.error _ => []

/-- Whether a reply_sse run raised an uncaught exception. -/
def sseFailed (r : Except Unit SseAcc) : Bool :=
  match r with
  | Except.ok _ => false
  | Except.error _ => true

/-- PROBE_MARKERS (cfpm_api_eval.py, lines 35-42). -/
def PROBE_MARKERS : List String :=
  ["$env:USERPROFILE",
   "%USERPROFILE%",
   "GetFolderPath(\x27Desktop\x27)",
   "User Shell Folders",
   "Test-Path",
   "Get-ChildItem C:\\Users"]

/-- The per-command test of score_probe_commands: some marker, lowered, is
a substring of the lowered command. -/
def isProbe (cmd : String) : Bool :=
  PROBE_MARKERS.any (fun m => pyContains (pyLower cmd) (pyLower m))

/-- score_probe_commands (cfpm_api_eval.py, lines 227-236): the probe
commands and their count. -/
def score_probe_commands (commands : List String) : Nat × List String :=
  let probes := commands.filter isProbe
  (probes.length, probes)

/-- An active fact: str(f.get("status", "")).lower() == "active". -/
def activeB (f : Dict) : Bool :=
  pyLower (getStr f "status") == "active"

/-- An artifact-category fact: "artifact" in str(f.get("category", "")).lower(). -/
def isArtifactCat (f : Dict) : Bool :=
  pyContains (pyLower (getStr f "category")) "artifact"

/-- An invalid-path-category fact: "invalid_path" in str(f.get("category", "")).lower(). -/
def isInvalidCat (f : Dict) : Bool :=
  pyContains (pyLower (getStr f "category")) "invalid_path"

/-- A date-noise fact body: content is a str and its stripped form matches
DATE_ONLY_RE. -/
def dateNoiseB (f : Dict) : Bool :=
  match contentStr f with
  | some c => isDateOnly (pyStrip c)
  | none => false

/-- A wrong-desktop fact body: content is a str and its stripped form
matches DESKTOP_WRONG_RE. -/
def wrongDesktopB (f : Dict) : Bool :=
  match contentStr f with
  | some c => isDesktopWrong (pyStrip c)
  | none => false

/-- A OneDrive-desktop fact body: content is a str containing onedrive and
ending with desktop, both case-insensitively. -/
def oneDriveB (f : Dict) : Bool :=
  match contentStr f with
  | some c => pyContains (pyLower c) "onedrive" && pyEndsWith (pyLower c) "desktop"
  | none => false

/-- An accepted date candidate: decision is accepted (case-insensitively)
and the stripped content matches DATE_ONLY_RE. -/
def acceptedDateB (c : Dict) : Bool :=
  pyLower (getStr c "decision") == "accepted" && dateNoiseB c

/-- A wrong tool-gate: path is a str whose stripped form matches
DESKTOP_WRONG_RE. -/
def gateWrongB (g : Dict) : Bool :=
  match dictGet g "path" with
  | some (PVal.s p) => isDesktopWrong (pyStrip p)
  | _ => false

/-- The issue list assembled by evaluate_quality, in declaration order,
from the five trigger flags. -/
def qIssues (b1 b2 b3 b4 b5 : Bool) : List String :=
  (if b1 then ["date_noise_fact_active"] else []) ++
  (if b2 then ["date_noise_candidate_accepted"] else []) ++
  (if b3 then ["wrong_desktop_without_invalid_marker"] else []) ++
  (if b4 then ["second_turn_repeated_probe_despite_memory"] else []) ++
  (if b5 then ["tool_gate_reused_wrong_path"] else [])

/-- The structured result of evaluate_quality. -/
structure QualityReport where
  activeFactCount : Nat
  activeArtifactCount : Nat
  activeInvalidPathCount : Nat
  dateNoiseFacts : List Dict
  acceptedDateCandidates : List Dict
  wrongDesktopArtifacts : List Dict
  oneDriveDesktopArtifacts : List Dict
  probeCount : Nat
  probeCommands : List String
  wrongToolGatePaths : List Dict
  issues : List String
deriving DecidableEq, Repr

/-- The invalid-marker test guarding wrong_desktop_without_invalid_marker:
the source compares every active invalid-path fact only against
wrong_desktop[0], the first wrong-desktop artifact, lowering both sides. -/
def hasMarkerForFirst (active_invalids wrong_desktop : List Dict) : Bool :=
  match wrong_desktop with
  | [] => false
  | w :: _ =>
    active_invalids.any (fun f =>
      match contentStr f with
      | some c => pyLower c == pyLower (getStr w "content")
      | none => false)

/-- evaluate_quality (cfpm_api_eval.py, lines 291-359). -/
def evaluate_quality (facts_api candidates_api tool_gates : List Dict)
    (second_turn_commands : List String) : QualityReport :=
  let active_facts := facts_api.filter activeB
  let active_artifacts := active_facts.filter isArtifactCat
  let active_invalids := active_facts.filter isInvalidCat
  let date_facts := active_facts.filter dateNoiseB
  let wrong_desktop := active_artifacts.filter wrongDesktopB
  let onedrive_desktop := active_artifacts.filter oneDriveB
  let accepted_date_candidates := candidates_api.filter acceptedDateB
  let probe_stats := score_probe_commands second_turn_commands
  let second_turn_repeated_probe :=
    decide (0 < probe_stats.1) && decide (0 < onedrive_desktop.length)
  let wrong_gate_paths := tool_gates.filter gateWrongB
  { activeFactCount := active_facts.length
    activeArtifactCount := active_artifacts.length
    activeInvalidPathCount := active_invalids.length
    dateNoiseFacts := date_facts
    acceptedDateCandidates := accepted_date_candidates
    wrongDesktopArtifacts := wrong_desktop
    oneDriveDesktopArtifacts := onedrive_desktop
    probeCount := probe_stats.1
    probeCommands := probe_stats.2
    wrongToolGatePaths := wrong_gate_paths
    issues :=
      qIssues (!date_facts.isEmpty) (!accepted_date_candidates.isEmpty)
        (!wrong_desktop.isEmpty && !(hasMarkerForFirst active_invalids wrong_desktop))
        second_turn_repeated_probe (!wrong_gate_paths.isEmpty) }

/-- Relative path data/sessions/sessions.db appended below each root. -/
def dbRel : List String := ["data", "sessions", "sessions.db"]

/-- Candidate built from an explicit or environment root. -/
def rootCand (r : String) : List String := r :: dbRel

/-- Candidate built from the APPDATA root. -/
def appdataCand (a : String) : List String := a :: "AGIME" :: "agime" :: dbRel

/-- The hardcoded last-resort candidate path. -/
def hardCand : List String :=
  ["C:/Users/jsjm/AppData/Roaming/AGIME/agime/data/sessions/sessions.db"]

/-- find_sessions_db (cfpm_api_eval.py, lines 239-253): the candidate list
and the first existing candidate, with the filesystem abstracted as an
existence predicate. -/
def find_sessions_db (fs : List String → Bool) (pathRoot envPathRoot appdata : Option String) :
    Option (List String) :=
  let candidates :=
    (pathRoot.toList.map rootCand) ++ (envPathRoot.toList.map rootCand) ++
      (appdata.toList.map appdataCand) ++ [hardCand]
  candidates.find? fs

/-- find_db (cfpm_resume_eval.py, lines 142-153): the resume script never
reads the PATH_ROOT environment variable; its candidates are only the
explicit root, the APPDATA root, and the hardcoded path. -/
def find_db (fs : List String → Bool) (pathRoot appdata : Option String) :
    Option (List String) :=
  let cands :=
    (pathRoot.toList.map rootCand) ++ (appdata.toList.map appdataCand) ++ [hardCand]
  cands.find? fs

/-- Identity key of a fact in the cross-validation of main
(cfpm_api_eval.py, lines 504-521): str() of category, content, status and
source, with "" defaults. -/
def factKey (f : Dict) : List String :=
  [getStr f "category", getStr f "content", getStr f "status", getStr f "source"]

/-- Strict lexicographic comparison of character lists by code point,
modelling Python string comparison. -/
def strLtB : List Char → List Char → Bool
  | [], [] => false
  | [], _ :: _ => true
  | _ :: _, [] => false
  | a :: as, b :: bs => if a < b then true else if b < a then false else strLtB as bs

/-- Lexicographic comparison of identity keys, mirroring Python tuple
comparison under sorted(). -/
def keyLe : List String → List String → Bool
  | [], _ => true
  | _ :: _, [] => false
  | a :: as, b :: bs =>
    if strLtB a.toList b.toList then true
    else if strLtB b.toList a.toList then false
    else keyLe as bs

/-- Ordered insertion for the deterministic sort of key lists. -/
def insertKey (x : List String) : List (List String) → List (List String)
  | [] => [x]
  | y :: ys => if keyLe x y then x :: y :: ys else y :: insertKey x ys

/-- Model of sorted() over a list of identity keys. -/
def sortKeys : List (List String) → List (List String)
  | [] => []
  | x :: xs => insertKey x (sortKeys xs)

/-- The distinct identity keys of a fact list, modelling the Python set
comprehension. -/
def keySet (facts : List Dict) : List (List String) :=
  (facts.map factKey).dedup

/-- The apiDbFactDelta of main (cfpm_api_eval.py, lines 522-525): each side
of the symmetric difference of the key sets, sorted and capped at 20. -/
def apiDbFactDelta (facts_api db_facts : List Dict) :
    List (List String) × List (List String) :=
  let apiKeys := keySet facts_api
  let dbKeys := keySet db_facts
  ((sortKeys (apiKeys.filter (fun k => !dbKeys.contains k))).take 20,
   (sortKeys (dbKeys.filter (fun k => !apiKeys.contains k))).take 20)

/-- Output of the storage phase of main (cfpm_api_eval.py, lines 496-530):
the located path, whether the dbSnapshot field degraded to a warning, the
delta when computed, and the success flag the run reaches when no
exception occurs afterwards. -/
structure StorageOut where
  dbPath : Option (List String)
  dbWarning : Bool
  delta : Option (List (List String) × List (List String))
  success : Bool

/-- Storage phase of main in cfpm_api_eval.py: when no candidate store
exists the snapshot degrades to a warning note and the run still reaches
success True. -/
def apiEvalStoragePhase (fs : List String → Bool)
    (pathRoot envPathRoot appdata : Option String)
    (facts_api db_facts : List Dict) : StorageOut :=
  match find_sessions_db fs pathRoot envPathRoot appdata with
  | some p =>
    { dbPath := some p, dbWarning := false,
      delta := some (apiDbFactDelta facts_api db_facts), success := true }
  | none =>
    { dbPath := none, dbWarning := true, delta := none, success := true }

/-- A captured top-level exception: its type name and message. -/
structure RunError where
  kind : String
  msg : String
deriving DecidableEq, Repr

/-- The error field text written by both mains. -/
def formatError (e : RunError) : String := e.kind ++ ": " ++ e.msg

/-- The outcome fields of a final report relevant to error handling. -/
structure FinalReport where
  success : Bool
  error : Option String
deriving DecidableEq, Repr

/-- The top-level try/except of main in cfpm_api_eval.py (lines 532-562)
and the report write and exit computation that follow it: the try body is
abstracted as an Except value; an exception yields success False and a
structured error string, the report is written on every path, and the exit
status is 0 exactly when success was recorded. -/
def apiEvalWrap (body : Except RunError Unit) : FinalReport × Bool × Nat :=
  let report :=
    match body with
    | Except.ok _ => { success := true, error := none : FinalReport }
    | Except.error e => { success := false, error := some (formatError e) : FinalReport }
  (report, true, if report.success then 0 else 1)

/-- The top-level try/except of main in cfpm_resume_eval.py (lines
261-291), identical in structure to the api script. -/
def resumeEvalWrap (body : Except RunError Unit) : FinalReport × Bool × Nat :=
  let report :=
    match body with
    | Except.ok _ => { success := true, error := none : FinalReport }
    | Except.error e => { success := false, error := some (formatError e) : FinalReport }
  (report, true, if report.success then 0 else 1)

/-- A concrete json.loads table used by the concrete stream computations:
it parses the three payloads that appear in them and raises on anything
else. -/
def cexParse : String → Option Jv := fun s =>
  if s = "\x7b\"type\": \"Finish\"\x7d" then some (Jv.jobj [("type", Jv.jstr "Finish")])
  else if s = "\x7b\"a\": 1\x7d" then some (Jv.jobj [("a", Jv.jnum 1)])
  else if s = "[1]" then some (Jv.jarr [Jv.jnum 1])
  else none

/-- A data line carrying a Finish event. -/
def lineFinish : String := "data: \x7b\"type\": \"Finish\"\x7d"

/-- A data line carrying a JSON object with no type field. -/
def lineObjNoType : String := "data: \x7b\"a\": 1\x7d"

/-- A data line whose payload is valid JSON but not an object. -/
def lineArr : String := "data: [1]"

/-- The reply_sse accumulator produced by a stream holding one Finish
line. -/
def finishOnlyAcc : SseAcc :=
  { eventTypes := ["Finish"], assistantText := [], systemNotes := [],
    toolRequests := 0, error := none, finishReason := none }

/-- A filesystem on which only the store under the PATH_ROOT environment
root E:/pr exists. -/
def fsEnvOnly : List String → Bool := fun p => p == rootCand "E:/pr"

/-- An active artifact fact whose content is a plain-desktop path for user
a. -/
def deskFactA : Dict :=
  [("category", PVal.s "artifact_path"),
   ("content", PVal.s "C:\\Users\\a\\Desktop"),
   ("status", PVal.s "active")]

/-- An active artifact fact whose content is a plain-desktop path for user
b. -/
def deskFactB : Dict :=
  [("category", PVal.s "artifact_path"),
   ("content", PVal.s "C:\\Users\\b\\Desktop"),
   ("status", PVal.s "active")]

/-- An active invalid-path marker fact for user a's desktop path only. -/
def invalidMarkA : Dict :=
  [("category", PVal.s "invalid_path"),
   ("content", PVal.s "C:\\Users\\a\\Desktop"),
   ("status", PVal.s "active")]

/-- An active invalid-path-category fact whose content is a bare calendar
date. -/
def dateInvalidFact : Dict :=
  [("category", PVal.s "invalid_path"),
   ("content", PVal.s "2024/03/01"),
   ("status", PVal.s "active")]

/-- A fact whose status is not active. -/
def inactiveFact : Dict :=
  [("status", PVal.s "superseded"), ("content", PVal.s "2024/03/01")]

/-! Helper lemmas about the two read loops. -/

theorem stream_reply_takeWhile (parse : String → Option Jv) (timeout : ℚ) :
    ∀ lines : List (ℚ × String),
      stream_reply parse timeout lines =
        stream_reply parse timeout (lines.takeWhile fun p => decide (p.1 ≤ timeout))
  | [] => rfl
  | (t, raw) :: rest => by
    rw [List.takeWhile_cons]
    by_cases h : timeout < t
    · have hd : decide ((t, raw).1 ≤ timeout) = false := decide_eq_false (not_le.mpr h)
      rw [hd]
      simp [stream_reply, h]
    · have hd : decide ((t, raw).1 ≤ timeout) = true := decide_eq_true (not_lt.mp h)
      rw [hd]
      simp only [stream_reply, if_neg h]
      cases hpe : parsedEvent parse raw with
      | none => exact stream_reply_takeWhile parse timeout rest
      | some j =>
        by_cases ht : isTerminalB j = true
        · simp [ht]
        · simp only [ht, if_false, Bool.false_eq_true]
          rw [stream_reply_takeWhile parse timeout rest]

theorem replySseAux_timestamps (parse : String → Option Jv) :
    ∀ (l1 l2 : List (ℚ × String)), l1.map Prod.snd = l2.map Prod.snd →
      ∀ acc, replySseAux parse l1 acc = replySseAux parse l2 acc
  | [], [], _, _ => rfl
  | [], (_, _) :: _, h, _ => by simp at h
  | (_, _) :: _, [], h, _ => by simp at h
  | (q1, s1) :: t1, (q2, s2) :: t2, h, acc => by
    have hs : s1 = s2 := by simpa using congrArg (fun l => l.headD "") h
    have ht : t1.map Prod.snd = t2.map Prod.snd := by simpa using congrArg List.tail h
    subst hs
    have ih := replySseAux_timestamps parse t1 t2 ht
    cases hdp : dataPayload s1 with
    | none => simp only [replySseAux, hdp]; exact ih acc
    | some blob =>
      cases hp : parse blob with
      | none => simp only [replySseAux, hdp, hp]; exact ih acc
      | some j =>
        cases j with
        | null => simp only [replySseAux, hdp, hp]
        | jbool b => simp only [replySseAux, hdp, hp]
        | jnum n => simp only [replySseAux, hdp, hp]
        | jstr v => simp only [replySseAux, hdp, hp]
        | jarr elems => simp only [replySseAux, hdp, hp]
        | jobj fields =>
          cases hot : objType fields with
          | none => simp only [replySseAux, hdp, hp, hot]; exact ih acc
          | some ty =>
            simp only [replySseAux, hdp, hp, hot]
            by_cases hM : ty = "Message"
            · subst hM
              rw [if_pos rfl, if_pos rfl]
              cases hmi : msgItems fields with
              | error e => simp only [hmi]
              | ok items =>
                simp only [hmi]
                cases hpi : procItems { acc with eventTypes := acc.eventTypes ++ ["Message"] } items with
                | error e => simp only [hpi]
                | ok acc2 => simp only [hpi]; exact ih acc2
            · rw [if_neg hM, if_neg hM]
              by_cases hE : ty = "Error"
              · subst hE; rw [if_pos rfl, if_pos rfl]
              · rw [if_neg hE, if_neg hE]
                by_cases hF : ty = "Finish"
                · subst hF; rw [if_pos rfl, if_pos rfl]
                · rw [if_neg hF, if_neg hF]
                  exact ih _

theorem stream_reply_terminal_last (parse : String → Option Jv) (timeout : ℚ) :
    ∀ lines : List (ℚ × String),
      ((stream_reply parse timeout lines).dropLast.all fun j => !isTerminalB j) = true ∧
        (stream_reply parse timeout lines).countP isTerminalB ≤ 1
  | [] => ⟨rfl, by simp [stream_reply]⟩
  | (t, raw) :: rest => by
    by_cases h : timeout < t
    · simp [stream_reply, h]
    · obtain ⟨ih1, ih2⟩ := stream_reply_terminal_last parse timeout rest
      simp only [stream_reply, if_neg h]
      cases hpe : parsedEvent parse raw with
      | none => exact ⟨ih1, ih2⟩
      | some j =>
        by_cases ht : isTerminalB j = true
        · simp [ht, List.countP_cons]
        · simp only [ht, if_false, Bool.false_eq_true]
          constructor
          · cases hout : stream_reply parse timeout rest with
            | nil => simp
            | cons x xs =>
              rw [List.dropLast_cons₂, List.all_cons]
              rw [hout] at ih1
              simp [ht, ih1]
          · rw [List.countP_cons]
            simpa [ht] using ih2

theorem procItem_eventTypes (acc : SseAcc) (c : Jv) (acc2 : SseAcc)
    (h : procItem acc c = Except.ok acc2) : acc2.eventTypes = acc.eventTypes := by
  cases c with
  | jobj fields =>
    have hx : acc2 = procNote fields (procTool fields (procText fields acc)) := by
      simpa [procItem] using h.symm
    subst hx
    have h1 : (procText fields acc).eventTypes = acc.eventTypes := by
      rw [procText]; split
      · split <;> rfl
      · rfl
    have h2 : (procTool fields (procText fields acc)).eventTypes =
        (procText fields acc).eventTypes := by
      rw [procTool]; split <;> rfl
    have h3 : (procNote fields (procTool fields (procText fields acc))).eventTypes =
        (procTool fields (procText fields acc)).eventTypes := by
      rw [procNote]; split
      · split
        · split <;> rfl
        · rfl
      · rfl
    rw [h3, h2, h1]
  | null => simp [procItem] at h
  | jbool b => simp [procItem] at h
  | jnum n => simp [procItem] at h
  | jstr v => simp [procItem] at h
  | jarr elems => simp [procItem] at h

theorem procItems_eventTypes :
    ∀ (items : List Jv) (acc acc2 : SseAcc),
      procItems acc items = Except.ok acc2 → acc2.eventTypes = acc.eventTypes
  | [], acc, acc2, h => by
    have : acc = acc2 := by simpa [procItems] using h
    rw [← this]
  | c :: cs, acc, acc2, h => by
    simp only [procItems] at h
    cases hp : procItem acc c with
    | error e => rw [hp] at h; exact absurd h (by simp)
    | ok accm =>
      rw [hp] at h
      rw [procItems_eventTypes cs accm acc2 h, procItem_eventTypes acc c accm hp]

theorem replySseAux_terminal_last (parse : String → Option Jv) :
    ∀ (lines : List (ℚ × String)) (acc : SseAcc),
      (acc.eventTypes.all fun ty => !(ty == "Finish" || ty == "Error")) = true →
      ∀ res, replySseAux parse lines acc = Except.ok res →
        ((res.eventTypes.dropLast.all fun ty => !(ty == "Finish" || ty == "Error")) = true ∧
          res.eventTypes.countP (fun ty => ty == "Finish" || ty == "Error") ≤ 1)
  | [], acc, hinv, res, h => by
    have : acc = res := by simpa [replySseAux] using h
    subst this
    constructor
    · exact List.all_eq_true.mpr fun x hx =>
        List.all_eq_true.mp hinv x (List.dropLast_sublist _ |>.subset hx)
    · have : acc.eventTypes.countP (fun ty => ty == "Finish" || ty == "Error") = 0 :=
        List.countP_eq_zero.mpr fun a ha => by
          simpa using List.all_eq_true.mp hinv a ha
      omega
  | (q, raw) :: rest, acc, hinv, res, h => by
    cases hdp : dataPayload raw with
    | none =>
      simp only [replySseAux, hdp] at h
      exact replySseAux_terminal_last parse rest acc hinv res h
    | some blob =>
      cases hp : parse blob with
      | none =>
        simp only [replySseAux, hdp, hp] at h
        exact replySseAux_terminal_last parse rest acc hinv res h
      | some j =>
        cases j with
        | null => simp only [replySseAux, hdp, hp] at h; exact absurd h (by simp)
        | jbool b => simp only [replySseAux, hdp, hp] at h; exact absurd h (by simp)
        | jnum n => simp only [replySseAux, hdp, hp] at h; exact absurd h (by simp)
        | jstr v => simp only [replySseAux, hdp, hp] at h; exact absurd h (by simp)
        | jarr elems => simp only [replySseAux, hdp, hp] at h; exact absurd h (by simp)
        | jobj fields =>
          cases hot : objType fields with
          | none =>
            simp only [replySseAux, hdp, hp, hot] at h
            exact replySseAux_terminal_last parse rest acc hinv res h
          | some ty =>
            simp only [replySseAux, hdp, hp, hot] at h
            by_cases hM : ty = "Message"
            · subst hM
              rw [if_pos rfl] at h
              cases hmi : msgItems fields with
              | error e => simp only [hmi] at h; exact absurd h (by simp)
              | ok items =>
                simp only [hmi] at h
                cases hpi : procItems { acc with eventTypes := acc.eventTypes ++ ["Message"] } items with
                | error e => simp only [hpi] at h; exact absurd h (by simp)
                | ok acc2 =>
                  simp only [hpi] at h
                  have htypes := procItems_eventTypes items _ acc2 hpi
                  have hinv2 : (acc2.eventTypes.all fun ty => !(ty == "Finish" || ty == "Error")) = true := by
                    rw [htypes]
                    simp only [List.all_append, Bool.and_eq_true]
                    exact ⟨hinv, by decide⟩
                  exact replySseAux_terminal_last parse rest acc2 hinv2 res h
            · by_cases hE : ty = "Error"
              · subst hE
                rw [if_neg (by decide), if_pos rfl] at h
                have hres : res.eventTypes = acc.eventTypes ++ ["Error"] := by
                  have := (Except.ok.injEq _ _).mp h.symm
                  rw [this]
                rw [hres]
                constructor
                · rw [List.dropLast_concat]; exact hinv
                · rw [List.countP_append]
                  have : acc.eventTypes.countP (fun ty => ty == "Finish" || ty == "Error") = 0 :=
                    List.countP_eq_zero.mpr fun a ha => by
                      simpa using List.all_eq_true.mp hinv a ha
                  simp [this, List.countP_cons]
              · by_cases hF : ty = "Finish"
                · subst hF
                  rw [if_neg (by decide), if_neg hE, if_pos rfl] at h
                  have hres : res.eventTypes = acc.eventTypes ++ ["Finish"] := by
                    have := (Except.ok.injEq _ _).mp h.symm
                    rw [this]
                  rw [hres]
                  constructor
                  · rw [List.dropLast_concat]; exact hinv
                  · rw [List.countP_append]
                    have : acc.eventTypes.countP (fun ty => ty == "Finish" || ty == "Error") = 0 :=
                      List.countP_eq_zero.mpr fun a ha => by
                        simpa using List.all_eq_true.mp hinv a ha
                    simp [this, List.countP_cons]
                · rw [if_neg hM, if_neg hE, if_neg hF] at h
                  have hinv2 : ((acc.eventTypes ++ [ty]).all fun ty => !(ty == "Finish" || ty == "Error")) = true := by
                    simp only [List.all_append, Bool.and_eq_true]
                    refine ⟨hinv, ?_⟩
                    simp [hE, hF]
                  exact replySseAux_terminal_last parse rest _ hinv2 res h

/-! Theorems for the frozen claims. -/

/-- Claim C4 (corrected).  The stream reader of cfpm_api_eval.py aborts its
read loop once the elapsed wall-clock time strictly exceeds the timeout: its
result only depends on the prefix of lines whose iterations begin within
the deadline.  The stream reader of cfpm_resume_eval.py performs no
wall-clock check in its loop: its result is unchanged under arbitrary
changes of the timeout and of the per-line elapsed times. -/
theorem c4_wall_clock_timeout (parse : String → Option Jv) (timeout : ℚ)
    (lines : List (ℚ × String)) :
    stream_reply parse timeout lines =
      stream_reply parse timeout (lines.takeWhile fun p => decide (p.1 ≤ timeout)) ∧
    ∀ (timeout2 : ℚ) (lines2 : List (ℚ × String)),
      lines.map Prod.snd = lines2.map Prod.snd →
      reply_sse parse timeout lines = reply_sse parse timeout2 lines2 :=
  ⟨stream_reply_takeWhile parse timeout lines,
   fun t2 l2 h => replySseAux_timestamps parse lines l2 h sseInit⟩

/-- Witness for c4_wall_clock_timeout at a concrete stream. -/
theorem c4_wall_clock_timeout_witness :
    ([((5 : ℚ), lineFinish)].map Prod.snd = [((0 : ℚ), lineFinish)].map Prod.snd) ∧
    reply_sse cexParse 1 [((5 : ℚ), lineFinish)] = reply_sse cexParse 7 [((0 : ℚ), lineFinish)] :=
  ⟨rfl, (c4_wall_clock_timeout cexParse 1 [((5 : ℚ), lineFinish)]).2 7 [((0 : ℚ), lineFinish)] rfl⟩

/-- Counterexample to claim C4 as stated: with a timeout of 1 second, the
reply_sse reader of cfpm_resume_eval.py still parses and collects an event
from a line whose processing begins 5 seconds after the loop started,
while the stream_reply reader of cfpm_api_eval.py correctly drops it. -/
theorem c4_counterexample :
    (1 : ℚ) < 5 ∧
    sseTypes (reply_sse cexParse 1 [((5 : ℚ), lineFinish)]) = ["Finish"] ∧
    stream_reply cexParse 1 [((5 : ℚ), lineFinish)] = [] :=
  ⟨by norm_num, rfl, rfl⟩

/-- Claim C5 (corrected).  The api script tests candidate store paths in
the order: explicit root argument, PATH_ROOT environment root, APPDATA
root, hardcoded path, returning the first existing one.  The resume
script's find_db takes no PATH_ROOT environment input at all: its order is
explicit root, APPDATA root, hardcoded path.  When no candidate exists the
api script's storage phase records a warning in the report and the run
still reaches success true. -/
theorem c5_store_location_order (fs : List String → Bool) :
    (∀ (r : String) (env a : Option String),
      find_sessions_db fs (some r) env a =
        if fs (rootCand r) then some (rootCand r) else find_sessions_db fs none env a) ∧
    (∀ (e : String) (a : Option String),
      find_sessions_db fs none (some e) a =
        if fs (rootCand e) then some (rootCand e) else find_sessions_db fs none none a) ∧
    (∀ a : String,
      find_sessions_db fs none none (some a) =
        if fs (appdataCand a) then some (appdataCand a) else find_sessions_db fs none none none) ∧
    (find_sessions_db fs none none none = if fs hardCand then some hardCand else none) ∧
    (∀ (r : String) (a : Option String),
      find_db fs (some r) a =
        if fs (rootCand r) then some (rootCand r) else find_db fs none a) ∧
    (∀ a : String,
      find_db fs none (some a) =
        if fs (appdataCand a) then some (appdataCand a) else find_db fs none none) ∧
    (find_db fs none none = if fs hardCand then some hardCand else none) ∧
    (∀ (pr env a : Option String) (fa fd : List Dict),
      (apiEvalStoragePhase fs pr env a fa fd).success = true ∧
      (apiEvalStoragePhase fs pr env a fa fd).dbWarning =
        (find_sessions_db fs pr env a).isNone) := by
  refine ⟨?_, ?_, ?_, ?_, ?_, ?_, ?_, ?_⟩
  · intro r env a
    by_cases h : fs (rootCand r) = true <;>
      simp [find_sessions_db, List.find?_cons, h]
  · intro e a
    by_cases h : fs (rootCand e) = true <;>
      simp [find_sessions_db, List.find?_cons, h]
  · intro a
    by_cases h : fs (appdataCand a) = true <;>
      simp [find_sessions_db, List.find?_cons, h]
  · by_cases h : fs hardCand = true <;>
      simp [find_sessions_db, List.find?_cons, h]
  · intro r a
    by_cases h : fs (rootCand r) = true <;>
      simp [find_db, List.find?_cons, h]
  · intro a
    by_cases h : fs (appdataCand a) = true <;>
      simp [find_db, List.find?_cons, h]
  · by_cases h : fs hardCand = true <;>
      simp [find_db, List.find?_cons, h]
  · intro pr env a fa fd
    cases hf : find_sessions_db fs pr env a <;>
      simp [apiEvalStoragePhase, hf]

/-- Counterexample to claim C5 as stated: on a filesystem where only the
store under the PATH_ROOT environment root exists, the api script finds it
but the resume script - whose search never consults that environment
variable - finds nothing. -/
theorem c5_counterexample :
    fsEnvOnly (rootCand "E:/pr") = true ∧
    find_sessions_db fsEnvOnly none (some "E:/pr") none = some (rootCand "E:/pr") ∧
    find_db fsEnvOnly none none = none :=
  ⟨rfl, rfl, rfl⟩

/-- Claim C9 (confirmed).  In both scripts any exception from the
evaluation steps is recorded as a single kind-plus-message error string
with success false, the report is written on every path, and the exit
status is 0 exactly when success was recorded. -/
theorem c9_top_level_error_handling :
    (∀ e : RunError, apiEvalWrap (Except.error e) =
      ({ success := false, error := some (e.kind ++ ": " ++ e.msg) }, true, 1)) ∧
    apiEvalWrap (Except.ok ()) = ({ success := true, error := none }, true, 0) ∧
    (∀ b : Except RunError Unit,
      (apiEvalWrap b).2.1 = true ∧ ((apiEvalWrap b).2.2 = 0 ↔ (apiEvalWrap b).1.success = true)) ∧
    (∀ e : RunError, resumeEvalWrap (Except.error e) =
      ({ success := false, error := some (e.kind ++ ": " ++ e.msg) }, true, 1)) ∧
    resumeEvalWrap (Except.ok ()) = ({ success := true, error := none }, true, 0) ∧
    (∀ b : Except RunError Unit,
      (resumeEvalWrap b).2.1 = true ∧
        ((resumeEvalWrap b).2.2 = 0 ↔ (resumeEvalWrap b).1.success = true)) := by
  refine ⟨fun e => rfl, rfl, fun b => ?_, fun e => rfl, rfl, fun b => ?_⟩ <;>
    cases b <;> simp [apiEvalWrap, resumeEvalWrap]

/-- Claim C10 (confirmed).  In both read loops, every collected event
except possibly the last is non-terminal, and at most one terminal
(Finish or Error) event is collected; for reply_sse this is stated on the
recorded event types of any run that returns normally. -/
theorem c10_terminal_event_last (parse : String → Option Jv) (timeout : ℚ)
    (lines : List (ℚ × String)) :
    (((stream_reply parse timeout lines).dropLast.all fun j => !isTerminalB j) = true ∧
      (stream_reply parse timeout lines).countP isTerminalB ≤ 1) ∧
    ∀ res : SseAcc, reply_sse parse timeout lines = Except.ok res →
      ((res.eventTypes.dropLast.all fun ty => !(ty == "Finish" || ty == "Error")) = true ∧
        res.eventTypes.countP (fun ty => ty == "Finish" || ty == "Error") ≤ 1) :=
  ⟨stream_reply_terminal_last parse timeout lines,
   fun res h => replySseAux_terminal_last parse lines sseInit (by decide) res h⟩

/-- Witness for c10_terminal_event_last at a concrete stream. -/
theorem c10_terminal_event_last_witness :
    (finishOnlyAcc.eventTypes.dropLast.all fun ty => !(ty == "Finish" || ty == "Error")) = true ∧
    finishOnlyAcc.eventTypes.countP (fun ty => ty == "Finish" || ty == "Error") ≤ 1 :=
  (c10_terminal_event_last cexParse 0 [((0 : ℚ), lineFinish)]).2 finishOnlyAcc rfl

/-! Helper lemmas about the issue list and the heuristic predicates. -/

theorem mem_qIssues_dateNoise {b1 b2 b3 b4 b5 : Bool} :
    "date_noise_fact_active" ∈ qIssues b1 b2 b3 b4 b5 ↔ b1 = true := by
  cases b1 <;> cases b2 <;> cases b3 <;> cases b4 <;> cases b5 <;> decide

theorem mem_qIssues_wrongDesktop {b1 b2 b3 b4 b5 : Bool} :
    "wrong_desktop_without_invalid_marker" ∈ qIssues b1 b2 b3 b4 b5 ↔ b3 = true := by
  cases b1 <;> cases b2 <;> cases b3 <;> cases b4 <;> cases b5 <;> decide

theorem mem_qIssues_probe {b1 b2 b3 b4 b5 : Bool} :
    "second_turn_repeated_probe_despite_memory" ∈ qIssues b1 b2 b3 b4 b5 ↔ b4 = true := by
  cases b1 <;> cases b2 <;> cases b3 <;> cases b4 <;> cases b5 <;> decide

theorem isProbe_iff (cmd : String) :
    isProbe cmd = true ↔ ∃ m ∈ PROBE_MARKERS, pyContains (pyLower cmd) (pyLower m) = true := by
  simp [isProbe, List.any_eq_true]

theorem oneDriveB_iff (f : Dict) :
    oneDriveB f = true ↔
      ∃ c, contentStr f = some c ∧
        pyContains (pyLower c) "onedrive" = true ∧ pyEndsWith (pyLower c) "desktop" = true := by
  cases h : contentStr f <;> simp [oneDriveB, h]

theorem markerPred_iff (w g : Dict) :
    (match contentStr g with
      | some c => pyLower c == pyLower (getStr w "content")
      | none => false) = true ↔
      ∃ c, contentStr g = some c ∧ pyLower c = pyLower (getStr w "content") := by
  cases h : contentStr g <;> simp [h]

/-- Claim C2 (corrected).  An active fact is counted as date-noise exactly
when its content is a str whose stripped form matches the bare-date
pattern, regardless of its category: the source applies no category
exclusion, so even an active invalid-path-category fact is counted.  The
issue date_noise_fact_active is emitted exactly when the date-noise list is
nonempty. -/
theorem c2_date_noise_counting (facts cands gates : List Dict) (cmds : List String) (f : Dict) :
    (f ∈ (evaluate_quality facts cands gates cmds).dateNoiseFacts ↔
      f ∈ facts ∧ activeB f = true ∧ dateNoiseB f = true) ∧
    ("date_noise_fact_active" ∈ (evaluate_quality facts cands gates cmds).issues ↔
      (evaluate_quality facts cands gates cmds).dateNoiseFacts ≠ []) := by
  constructor
  · simp only [evaluate_quality, List.mem_filter, and_assoc]
  · simp [evaluate_quality, mem_qIssues_dateNoise, List.isEmpty_iff]

/-- Counterexample to claim C2 as stated: an active fact whose category is
the invalid-path marker and whose content is a bare calendar date is
nevertheless placed in the date-noise list and triggers the issue. -/
theorem c2_counterexample :
    isInvalidCat dateInvalidFact = true ∧ activeB dateInvalidFact = true ∧
    dateNoiseB dateInvalidFact = true ∧
    (evaluate_quality [dateInvalidFact] [] [] []).dateNoiseFacts = [dateInvalidFact] ∧
    "date_noise_fact_active" ∈ (evaluate_quality [dateInvalidFact] [] [] []).issues := by
  refine ⟨by decide, by decide, by decide, by decide, by decide⟩

/-- Claim C3 (corrected).  The issue wrong_desktop_without_invalid_marker
is present exactly when the wrong-desktop artifact list is nonempty and no
active invalid-path-category fact has a str content equal, after lowering,
to the content of the FIRST wrong-desktop artifact: the source only ever
compares the markers against wrong_desktop[0], so later matching artifacts
without a marker do not raise the issue. -/
theorem c3_wrong_desktop_issue (facts cands gates : List Dict) (cmds : List String) :
    "wrong_desktop_without_invalid_marker" ∈ (evaluate_quality facts cands gates cmds).issues ↔
      (match (evaluate_quality facts cands gates cmds).wrongDesktopArtifacts with
       | [] => False
       | w :: _ =>
         ¬ ∃ g ∈ facts, activeB g = true ∧ isInvalidCat g = true ∧
             ∃ c, contentStr g = some c ∧ pyLower c = pyLower (getStr w "content")) := by
  simp only [evaluate_quality, mem_qIssues_wrongDesktop]
  cases hw : ((facts.filter activeB).filter isArtifactCat).filter wrongDesktopB with
  | nil => simp [hw]
  | cons w ws =>
    simp only [hw, List.isEmpty_cons, Bool.not_false, Bool.true_and]
    rw [Bool.not_eq_true', Bool.eq_false_iff]
    simp only [hasMarkerForFirst, List.any_eq_true, List.mem_filter, markerPred_iff, and_assoc,
      ne_eq, not_exists, not_and]

/-- Counterexample to claim C3 as stated: two active wrong-desktop
artifacts where only the first has a matching invalid-path marker; the
claim requires the issue to be present because the second artifact has no
marker, but the source checks only the first and stays silent. -/
theorem c3_counterexample :
    (evaluate_quality [deskFactA, deskFactB, invalidMarkA] [] [] []).wrongDesktopArtifacts =
        [deskFactA, deskFactB] ∧
    ((([deskFactA, deskFactB, invalidMarkA].filter activeB).filter isInvalidCat).all
        fun g => !(pyLower (getStr g "content") == pyLower (getStr deskFactB "content"))) = true ∧
    "wrong_desktop_without_invalid_marker" ∉
      (evaluate_quality [deskFactA, deskFactB, invalidMarkA] [] [] []).issues := by
  refine ⟨by decide, by decide, by decide⟩

/-- Claim C7 (confirmed).  The issue
second_turn_repeated_probe_despite_memory is present exactly when some
recent command contains one of the fixed probe markers case-insensitively
and some active artifact-category fact has a str content containing
onedrive and ending with desktop, case-insensitively. -/
theorem c7_repeated_probe_issue (facts cands gates : List Dict) (cmds : List String) :
    "second_turn_repeated_probe_despite_memory" ∈ (evaluate_quality facts cands gates cmds).issues ↔
      ((∃ cmd ∈ cmds, ∃ m ∈ PROBE_MARKERS, pyContains (pyLower cmd) (pyLower m) = true) ∧
        ∃ f ∈ facts, activeB f = true ∧ isArtifactCat f = true ∧
          ∃ c, contentStr f = some c ∧
            pyContains (pyLower c) "onedrive" = true ∧ pyEndsWith (pyLower c) "desktop" = true) := by
  simp only [evaluate_quality, mem_qIssues_probe, score_probe_commands]
  rw [Bool.and_eq_true, decide_eq_true_iff, decide_eq_true_iff]
  rw [List.length_pos, List.length_pos]
  constructor
  · rintro ⟨h1, h2⟩
    obtain ⟨cmd, hcmd⟩ := List.exists_mem_of_ne_nil _ h1
    obtain ⟨f, hf⟩ := List.exists_mem_of_ne_nil _ h2
    rw [List.mem_filter] at hcmd
    refine ⟨⟨cmd, hcmd.1, (isProbe_iff cmd).mp hcmd.2⟩, ?_⟩
    rw [List.mem_filter] at hf
    obtain ⟨hf1, hfo⟩ := hf
    rw [List.mem_filter] at hf1
    obtain ⟨hf2, hfa⟩ := hf1
    rw [List.mem_filter] at hf2
    exact ⟨f, hf2.1, hf2.2, hfa, (oneDriveB_iff f).mp hfo⟩
  · rintro ⟨⟨cmd, hc, hcp⟩, f, hf, hfa, hfc, hfo⟩
    constructor
    · intro hnil
      have : cmd ∈ cmds.filter isProbe :=
        List.mem_filter.mpr ⟨hc, (isProbe_iff cmd).mpr hcp⟩
      simp [hnil] at this
    · intro hnil
      have : f ∈ ((facts.filter activeB).filter isArtifactCat).filter oneDriveB :=
        List.mem_filter.mpr
          ⟨List.mem_filter.mpr ⟨List.mem_filter.mpr ⟨hf, hfa⟩, hfc⟩,
           (oneDriveB_iff f).mpr hfo⟩
      rw [hnil] at this
      simp at this

/-- Claim C8 (confirmed).  A fact whose status, lowered, is not active is
never counted in any of the three active counts and never appears in any
of the fact-based evidence lists: prepending such a fact to the input
changes none of them, and the fact itself is absent from each list. -/
theorem c8_inactive_fact_excluded (facts cands gates : List Dict) (cmds : List String)
    (f : Dict) (h : pyLower (getStr f "status") ≠ "active") :
    (evaluate_quality (f :: facts) cands gates cmds).activeFactCount =
        (evaluate_quality facts cands gates cmds).activeFactCount ∧
    (evaluate_quality (f :: facts) cands gates cmds).activeArtifactCount =
        (evaluate_quality facts cands gates cmds).activeArtifactCount ∧
    (evaluate_quality (f :: facts) cands gates cmds).activeInvalidPathCount =
        (evaluate_quality facts cands gates cmds).activeInvalidPathCount ∧
    (evaluate_quality (f :: facts) cands gates cmds).dateNoiseFacts =
        (evaluate_quality facts cands gates cmds).dateNoiseFacts ∧
    (evaluate_quality (f :: facts) cands gates cmds).wrongDesktopArtifacts =
        (evaluate_quality facts cands gates cmds).wrongDesktopArtifacts ∧
    (evaluate_quality (f :: facts) cands gates cmds).oneDriveDesktopArtifacts =
        (evaluate_quality facts cands gates cmds).oneDriveDesktopArtifacts ∧
    f ∉ (evaluate_quality (f :: facts) cands gates cmds).dateNoiseFacts ∧
    f ∉ (evaluate_quality (f :: facts) cands gates cmds).wrongDesktopArtifacts ∧
    f ∉ (evaluate_quality (f :: facts) cands gates cmds).oneDriveDesktopArtifacts := by
  have hfb : activeB f = false := by
    rw [activeB, beq_eq_false_iff_ne]
    exact h
  have hfilter : (f :: facts).filter activeB = facts.filter activeB := by
    simp [List.filter_cons, hfb]
  refine ⟨?_, ?_, ?_, ?_, ?_, ?_, ?_, ?_, ?_⟩ <;>
    first
      | (simp only [evaluate_quality]; rw [hfilter]; done)
      | (intro hm
         simp only [evaluate_quality] at hm
         rw [hfilter] at hm
         simp [List.mem_filter, hfb] at hm)

/-- Witness for c8_inactive_fact_excluded at a concrete inactive fact. -/
theorem c8_inactive_fact_excluded_witness :
    pyLower (getStr inactiveFact "status") ≠ "active" ∧
    (evaluate_quality [inactiveFact] [] [] []).activeFactCount =
      (evaluate_quality [] [] [] []).activeFactCount :=
  ⟨by decide, (c8_inactive_fact_excluded [] [] [] [] inactiveFact (by decide)).1⟩

/-! Helper lemmas for the decoder claim. -/

theorem stream_reply_decodes_aux (parse : String → Option Jv) (timeout : ℚ) :
    ∀ lines : List (ℚ × String), (∀ p ∈ lines, p.1 ≤ timeout) →
      stream_reply parse timeout lines = specUpToTerminal (decodedObjEvents parse lines)
  | [], _ => rfl
  | (t, raw) :: rest, h => by
    have ht : ¬timeout < t := not_lt.mpr (h (t, raw) (List.mem_cons_self _ _))
    have hrest : ∀ p ∈ rest, p.1 ≤ timeout := fun p hp => h p (List.mem_cons_of_mem _ hp)
    cases hpe : parsedEvent parse raw with
    | none =>
      simp only [stream_reply, if_neg ht, decodedObjEvents, List.filterMap_cons, hpe]
      exact stream_reply_decodes_aux parse timeout rest hrest
    | some j =>
      simp only [stream_reply, if_neg ht, decodedObjEvents, List.filterMap_cons, hpe,
        specUpToTerminal]
      by_cases hj : isTerminalB j = true
      · simp [hj]
      · simp only [hj, if_false, Bool.false_eq_true, List.cons.injEq, true_and]
        exact stream_reply_decodes_aux parse timeout rest hrest

theorem specUpToTerminal_ne_nil {x : Jv} {xs : List Jv} : specUpToTerminal (x :: xs) ≠ [] := by
  simp only [specUpToTerminal]
  split <;> simp

theorem specUpToTerminal_lastFinish :
    ∀ l : List Jv, firstTerminalFinish l = true → lastIsFinish (specUpToTerminal l) = true
  | [], h => by simp [firstTerminalFinish, List.find?] at h
  | j :: rest, h => by
    by_cases hj : isTerminalB j = true
    · simp only [firstTerminalFinish, List.find?_cons, hj] at h
      simp only [specUpToTerminal, if_pos hj]
      cases j with
      | jobj fields =>
        simp only [lastIsFinish, List.getLast?_singleton]
        exact h
      | null => simp [isTerminalB] at hj
      | jbool b => simp [isTerminalB] at hj
      | jnum n => simp [isTerminalB] at hj
      | jstr v => simp [isTerminalB] at hj
      | jarr elems => simp [isTerminalB] at hj
    · have hjf : isTerminalB j = false := by rwa [Bool.not_eq_true] at hj
      simp only [firstTerminalFinish, List.find?_cons, hjf] at h
      have h2 : firstTerminalFinish rest = true := h
      have ih := specUpToTerminal_lastFinish rest h2
      simp only [specUpToTerminal, hjf, if_false, Bool.false_eq_true]
      cases hs : specUpToTerminal rest with
      | nil =>
        cases rest with
        | nil => simp [firstTerminalFinish, List.find?] at h2
        | cons y ys => exact absurd hs specUpToTerminal_ne_nil
      | cons y ys =>
        rw [hs] at ih
        rw [lastIsFinish, List.getLast?_cons_cons]
        rw [lastIsFinish] at ih
        exact ih

/-- Claim C1 (corrected).  For the api script's stream_reply, over any
stream whose iterations all begin within the timeout and whose decoded
object events reach a first terminal event of type Finish, the decoder
returns exactly the JSON-object events of the data lines up to and
including that Finish, skipping empty, markerless, empty-payload,
unparseable and non-object payloads, and the last returned event is that
Finish.  The resume script's reply_sse, which the original claim also
covered, does not satisfy it (see the counterexample): it raises on a
valid-JSON non-object payload and drops objects without a string type
field. -/
theorem c1_stream_decoder (parse : String → Option Jv) (timeout : ℚ)
    (lines : List (ℚ × String)) (h : ∀ p ∈ lines, p.1 ≤ timeout)
    (hfin : firstTerminalFinish (decodedObjEvents parse lines) = true) :
    stream_reply parse timeout lines = specUpToTerminal (decodedObjEvents parse lines) ∧
    lastIsFinish (stream_reply parse timeout lines) = true := by
  have heq := stream_reply_decodes_aux parse timeout lines h
  refine ⟨heq, ?_⟩
  rw [heq]
  exact specUpToTerminal_lastFinish _ hfin

/-- Witness for c1_stream_decoder at a concrete stream containing a
skipped keep-alive line, an object event without type, a non-object data
line and a Finish. -/
theorem c1_stream_decoder_witness :
    (∀ p ∈ [((0 : ℚ), "keepalive"), ((0 : ℚ), lineObjNoType), ((0 : ℚ), lineArr),
        ((0 : ℚ), lineFinish)], p.1 ≤ (0 : ℚ)) ∧
    firstTerminalFinish (decodedObjEvents cexParse
      [((0 : ℚ), "keepalive"), ((0 : ℚ), lineObjNoType), ((0 : ℚ), lineArr),
        ((0 : ℚ), lineFinish)]) = true ∧
    stream_reply cexParse 0
        [((0 : ℚ), "keepalive"), ((0 : ℚ), lineObjNoType), ((0 : ℚ), lineArr),
          ((0 : ℚ), lineFinish)] =
      specUpToTerminal (decodedObjEvents cexParse
        [((0 : ℚ), "keepalive"), ((0 : ℚ), lineObjNoType), ((0 : ℚ), lineArr),
          ((0 : ℚ), lineFinish)]) :=
  ⟨by decide,
   by rfl,
   (c1_stream_decoder cexParse 0
      [((0 : ℚ), "keepalive"), ((0 : ℚ), lineObjNoType), ((0 : ℚ), lineArr),
        ((0 : ℚ), lineFinish)] (by decide) (by rfl)).1⟩

/-- Counterexample to claim C1 as stated: the data line carrying the valid
non-object JSON payload [1] makes reply_sse raise (the claim says such a
line never causes the decoder to fail), and a JSON object without a string
type field contributes no event to reply_sse even though it is a decoded
JSON object preceding the Finish; stream_reply handles both streams as the
claim describes. -/
theorem c1_counterexample :
    cexParse "[1]" = some (Jv.jarr [Jv.jnum 1]) ∧
    dataPayload lineArr = some "[1]" ∧
    sseFailed (reply_sse cexParse 240 [((0 : ℚ), lineArr), ((0 : ℚ), lineFinish)]) = true ∧
    sseTypes (reply_sse cexParse 240 [((0 : ℚ), lineObjNoType), ((0 : ℚ), lineFinish)]) =
      ["Finish"] ∧
    (decodedObjEvents cexParse [((0 : ℚ), lineObjNoType), ((0 : ℚ), lineFinish)]).length = 2 ∧
    stream_reply cexParse 240 [((0 : ℚ), lineArr), ((0 : ℚ), lineFinish)] =
      [Jv.jobj [("type", Jv.jstr "Finish")]] :=
  ⟨rfl, rfl, rfl, rfl, rfl, rfl⟩

/-! Helper lemmas for the cross-validation claim: the insertion sort over
identity keys. -/

theorem strLtB_eq_of_both_false :
    ∀ {a b : List Char}, strLtB a b = false → strLtB b a = false → a = b
  | [], [], _, _ => rfl
  | [], _ :: _, h1, _ => by simp [strLtB] at h1
  | _ :: _, [], _, h2 => by simp [strLtB] at h2
  | x :: xs, y :: ys, h1, h2 => by
    by_cases hxy : x < y
    · simp [strLtB, hxy] at h1
    · by_cases hyx : y < x
      · simp [strLtB, hyx] at h2
      · have hx : x = y := le_antisymm (not_lt.mp hyx) (not_lt.mp hxy)
        subst hx
        simp only [strLtB, if_neg hxy] at h1 h2
        exact congrArg (x :: ·) (strLtB_eq_of_both_false h1 h2)

theorem strLtB_trans :
    ∀ {a b c : List Char}, strLtB a b = true → strLtB b c = true → strLtB a c = true
  | [], [], _, h1, _ => by simp [strLtB] at h1
  | [], _ :: _, [], _, h2 => by simp [strLtB] at h2
  | [], _ :: _, _ :: _, _, _ => rfl
  | _ :: _, [], _, h1, _ => by simp [strLtB] at h1
  | _ :: _, _ :: _, [], _, h2 => by simp [strLtB] at h2
  | x :: xs, y :: ys, z :: zs, h1, h2 => by
    simp only [strLtB] at h1 h2 ⊢
    by_cases hxy : x < y
    · by_cases hyz : y < z
      · rw [if_pos (lt_trans hxy hyz)]
      · by_cases hzy : z < y
        · rw [if_neg hyz, if_pos hzy] at h2
          exact absurd h2 (by simp)
        · have hyz2 : y = z := le_antisymm (not_lt.mp hzy) (not_lt.mp hyz)
          subst hyz2
          rw [if_pos hxy]
    · by_cases hyx : y < x
      · rw [if_neg hxy, if_pos hyx] at h1
        exact absurd h1 (by simp)
      · have hxy2 : x = y := le_antisymm (not_lt.mp hyx) (not_lt.mp hxy)
        subst hxy2
        rw [if_neg hxy, if_neg hxy] at h1
        by_cases hxz : x < z
        · rw [if_pos hxz]
        · by_cases hzx : z < x
          · rw [if_neg hxz, if_pos hzx] at h2
            exact absurd h2 (by simp)
          · have hxz2 : x = z := le_antisymm (not_lt.mp hzx) (not_lt.mp hxz)
            subst hxz2
            rw [if_neg hxz, if_neg hxz] at h2
            rw [if_neg hxz, if_neg hxz]
            exact strLtB_trans h1 h2

theorem keyLe_total : ∀ a b : List String, keyLe a b = true ∨ keyLe b a = true
  | [], _ => Or.inl rfl
  | _ :: _, [] => Or.inr rfl
  | a :: as, b :: bs => by
    by_cases h1 : strLtB a.toList b.toList = true
    · left
      simp only [keyLe]
      rw [if_pos h1]
    · by_cases h2 : strLtB b.toList a.toList = true
      · right
        simp only [keyLe]
        rw [if_pos h2]
      · rcases keyLe_total as bs with ih | ih
        · left
          simp only [keyLe]
          rw [if_neg h1, if_neg h2]
          exact ih
        · right
          simp only [keyLe]
          rw [if_neg h2, if_neg h1]
          exact ih

theorem keyLe_trans :
    ∀ a b c : List String, keyLe a b = true → keyLe b c = true → keyLe a c = true
  | [], _, _, _, _ => rfl
  | _ :: _, [], _, h1, _ => by simp [keyLe] at h1
  | _ :: _, _ :: _, [], _, h2 => by simp [keyLe] at h2
  | a :: as, b :: bs, c :: cs, h1, h2 => by
    simp only [keyLe] at h1 h2 ⊢
    by_cases hab : strLtB a.toList b.toList = true
    · by_cases hbc : strLtB b.toList c.toList = true
      · rw [if_pos (strLtB_trans hab hbc)]
      · by_cases hcb : strLtB c.toList b.toList = true
        · rw [if_neg hbc, if_pos hcb] at h2
          exact absurd h2 (by simp)
        · have hl : b.toList = c.toList :=
            strLtB_eq_of_both_false (Bool.not_eq_true _ ▸ hbc) (Bool.not_eq_true _ ▸ hcb)
          rw [← hl]
          rw [if_pos hab]
    · by_cases hba : strLtB b.toList a.toList = true
      · rw [if_neg hab, if_pos hba] at h1
        exact absurd h1 (by simp)
      · have hl : a.toList = b.toList :=
          strLtB_eq_of_both_false (Bool.not_eq_true _ ▸ hab) (Bool.not_eq_true _ ▸ hba)
        rw [if_neg hab, if_neg hba] at h1
        rw [hl]
        by_cases hbc : strLtB b.toList c.toList = true
        · rw [if_pos hbc]
        · by_cases hcb : strLtB c.toList b.toList = true
          · rw [if_neg hbc, if_pos hcb] at h2
            exact absurd h2 (by simp)
          · rw [if_neg hbc] at h2 ⊢
            rw [if_neg hcb] at h2 ⊢
            exact keyLe_trans as bs cs h1 h2

theorem mem_insertKey {x z : List String} :
    ∀ {l : List (List String)}, z ∈ insertKey x l ↔ z = x ∨ z ∈ l
  | [] => by simp [insertKey]
  | y :: ys => by
    rw [insertKey]
    by_cases h : keyLe x y = true
    · rw [if_pos h, List.mem_cons, List.mem_cons]
    · rw [if_neg h, List.mem_cons, List.mem_cons, mem_insertKey]
      tauto

theorem pairwise_insertKey {x : List String} :
    ∀ {l : List (List String)}, l.Pairwise (fun a b => keyLe a b = true) →
      (insertKey x l).Pairwise (fun a b => keyLe a b = true)
  | [], _ => by simp [insertKey]
  | y :: ys, h => by
    rw [insertKey]
    rcases List.pairwise_cons.mp h with ⟨hy, hys⟩
    by_cases hxy : keyLe x y = true
    · rw [if_pos hxy]
      refine List.pairwise_cons.mpr ⟨?_, h⟩
      intro z hz
      rcases List.mem_cons.mp hz with rfl | hz
      · exact hxy
      · exact keyLe_trans _ _ _ hxy (hy z hz)
    · rw [if_neg hxy]
      have hyx : keyLe y x = true := (keyLe_total x y).resolve_left hxy
      refine List.pairwise_cons.mpr ⟨?_, pairwise_insertKey hys⟩
      intro z hz
      rcases mem_insertKey.mp hz with rfl | hz
      · exact hyx
      · exact hy z hz

theorem mem_sortKeys {z : List String} :
    ∀ {l : List (List String)}, z ∈ sortKeys l ↔ z ∈ l
  | [] => Iff.rfl
  | x :: xs => by rw [sortKeys, mem_insertKey, List.mem_cons, mem_sortKeys]

theorem pairwise_sortKeys :
    ∀ l : List (List String), (sortKeys l).Pairwise (fun a b => keyLe a b = true)
  | [] => List.Pairwise.nil
  | x :: xs => pairwise_insertKey (pairwise_sortKeys xs)

theorem contains_eq_false_iff {l : List (List String)} {k : List String} :
    (l.contains k = false) ↔ k ∉ l := by
  constructor
  · intro h hk
    rw [List.contains, List.elem_iff.mpr hk] at h
    exact absurd h (by simp)
  · intro h
    by_contra hc
    rw [Bool.not_eq_false, List.contains, List.elem_iff] at hc
    exact h hc

theorem mem_delta_left {facts_api db_facts : List Dict} {k : List String}
    (h : k ∈ (apiDbFactDelta facts_api db_facts).1) :
    k ∈ keySet facts_api ∧ k ∉ keySet db_facts := by
  simp only [apiDbFactDelta] at h
  have h2 := List.take_subset _ _ h
  rw [mem_sortKeys, List.mem_filter] at h2
  exact ⟨h2.1, contains_eq_false_iff.mp (by simpa using h2.2)⟩

theorem mem_delta_right {facts_api db_facts : List Dict} {k : List String}
    (h : k ∈ (apiDbFactDelta facts_api db_facts).2) :
    k ∈ keySet db_facts ∧ k ∉ keySet facts_api := by
  simp only [apiDbFactDelta] at h
  have h2 := List.take_subset _ _ h
  rw [mem_sortKeys, List.mem_filter] at h2
  exact ⟨h2.1, contains_eq_false_iff.mp (by simpa using h2.2)⟩

/-- Claim C6 (confirmed).  The two mismatch lists of the cross-validation
are disjoint, each is sorted lexicographically by identity key and capped
at 20 entries, each only holds keys of its own side's difference set, and
the two (untruncated) difference sets together with the intersection
reconstruct the full set of distinct keys across both sources. -/
theorem c6_symmetric_difference (facts_api db_facts : List Dict) :
    ((apiDbFactDelta facts_api db_facts).1.all
        fun k => !((apiDbFactDelta facts_api db_facts).2.contains k)) = true ∧
    (apiDbFactDelta facts_api db_facts).1.Pairwise (fun a b => keyLe a b = true) ∧
    (apiDbFactDelta facts_api db_facts).2.Pairwise (fun a b => keyLe a b = true) ∧
    (apiDbFactDelta facts_api db_facts).1.length ≤ 20 ∧
    (apiDbFactDelta facts_api db_facts).2.length ≤ 20 ∧
    ((apiDbFactDelta facts_api db_facts).1.all
        fun k => (keySet facts_api).contains k && !((keySet db_facts).contains k)) = true ∧
    ((apiDbFactDelta facts_api db_facts).2.all
        fun k => (keySet db_facts).contains k && !((keySet facts_api).contains k)) = true ∧
    ∀ k : List String,
      (k ∈ (keySet facts_api).filter (fun x => !((keySet db_facts).contains x)) ∨
        k ∈ (keySet db_facts).filter (fun x => !((keySet facts_api).contains x)) ∨
        (k ∈ keySet facts_api ∧ k ∈ keySet db_facts)) ↔
      (k ∈ keySet facts_api ∨ k ∈ keySet db_facts) := by
  refine ⟨?_, ?_, ?_, ?_, ?_, ?_, ?_, ?_⟩
  · rw [List.all_eq_true]
    intro k hk
    have h1 := mem_delta_left hk
    rw [Bool.not_eq_true', contains_eq_false_iff]
    intro hk2
    exact h1.2 (mem_delta_right hk2).1
  · exact List.Pairwise.sublist (List.take_sublist _ _) (pairwise_sortKeys _)
  · exact List.Pairwise.sublist (List.take_sublist _ _) (pairwise_sortKeys _)
  · exact List.length_take_le _ _
  · exact List.length_take_le _ _
  · rw [List.all_eq_true]
    intro k hk
    have h1 := mem_delta_left hk
    rw [Bool.and_eq_true, Bool.not_eq_true', contains_eq_false_iff]
    exact ⟨by rw [List.contains, List.elem_iff]; exact h1.1, h1.2⟩
  · rw [List.all_eq_true]
    intro k hk
    have h1 := mem_delta_right hk
    rw [Bool.and_eq_true, Bool.not_eq_true', contains_eq_false_iff]
    exact ⟨by rw [List.contains, List.elem_iff]; exact h1.1, h1.2⟩
  · intro k
    simp only [List.mem_filter, Bool.not_eq_true', contains_eq_false_iff]
    constructor
    · rintro (⟨h1, _⟩ | ⟨h1, _⟩ | ⟨h1, _⟩)
      · exact Or.inl h1
      · exact Or.inr h1
      · exact Or.inl h1
    · rintro (h1 | h1)
      · by_cases h2 : k ∈ keySet db_facts
        · exact Or.inr (Or.inr ⟨h1, h2⟩)
        · exact Or.inl ⟨h1, h2⟩
      · by_cases h2 : k ∈ keySet facts_api
        · exact Or.inr (Or.inr ⟨h2, h1⟩)
        · exact Or.inr (Or.inl ⟨h1, h2⟩)

end AgimeEval
